import Mathlib

/-
Verification development for VideoMerger (src/VideoMerger.py).

The Python script scans a root directory for subdirectories of video
segments, validates per-folder resolution consistency with ffprobe, merges
segments with ffmpeg's concat demuxer, and verifies the merged duration.
Below, the filesystem, the external tools (ffprobe / ffmpeg) and the
per-folder pipeline `merge_video` are embedded shallowly: external-tool
behaviour is an explicit environment, durations are exact rationals, and
the observable effects (probes, artifacts, manifest lifecycle, output file
state) are recorded in a result structure.
-/

namespace VideoMerger

/-- recognized video container extensions (`VIDEO_EXTENSIONS` in the source);
the check in `get_videos` lowercases the suffix first. -/
def VIDEO_EXTENSIONS : List String := ["mp4", "mkv"]

/-- what kind of directory entry a name refers to (`is_dir()` / `is_file()`). -/
inductive EntryKind
| dir
| file
| other
deriving DecidableEq, Repr

/-- one directory entry as returned by `Path.iterdir()`. -/
structure Entry where
  name : String
  kind : EntryKind
deriving DecidableEq, Repr

/-- index of the last occurrence of `c` in the list, if any
(Python's `str.rfind`). -/
def lastIndexOf (c : Char) : List Char → Option Nat
| [] => none
| x :: xs =>
  match lastIndexOf c xs with
  | some i => some (i + 1)
  | none => if x = c then some 0 else none

/-- `pathlib.PurePath.suffix`: the part of the final component from its last
dot, but only when that dot is neither the first nor the last character;
otherwise the empty string. -/
def pySuffix (name : String) : String :=
  let cs := name.toList
  match lastIndexOf '.' cs with
  | none => ""
  | some i => if 0 < i ∧ i + 1 < cs.length then String.mk (cs.drop i) else ""

/-- Python `str.lower()`, character by character. -/
def pyLower (s : String) : String :=
  String.mk (s.toList.map Char.toLower)

/-- Python `s[1:]` on a string. -/
def pyDropOne (s : String) : String :=
  String.mk (s.toList.drop 1)

/-- Python `name.startswith(('_', '.'))` as used by `get_dirs` and `main`. -/
def startsHidden (name : String) : Bool :=
  match name.toList with
  | [] => false
  | c :: _ => c = '_' || c = '.'

/-- lexicographic comparison of character lists by code point, which is how
Python compares the path strings that `list.sort()` orders. -/
def charListLe : List Char → List Char → Bool
| [], _ => true
| _ :: _, [] => false
| a :: as, b :: bs => if a = b then charListLe as bs else decide (a < b)

/-- Python string `<=`, by code points. -/
def strLe (a b : String) : Bool :=
  charListLe a.toList b.toList

/-- Python's `list.sort()` is a stable ascending sort; modelled by Mathlib's
stable insertion sort over the code-point order on names. -/
def pySort (l : List String) : List String :=
  l.insertionSort (fun a b => strLe a b = true)

/-- `get_dirs(main_path)` (source lines 261-295): when the root is a
directory, the immediate subdirectories whose names do not start with
`_` or `.`, sorted; otherwise (not a directory, or an OSError while
listing) the empty list. -/
def get_dirs (mainIsDir : Bool) (entries : List Entry) : List String :=
  if !mainIsDir then []
  else
    pySort ((entries.filter
      (fun e => e.kind = .dir && !startsHidden e.name)).map Entry.name)

/-- `get_videos(directory)` (source lines 298-333): when the path is a
directory, the files whose lowercased extension (without the dot) is in
`VIDEO_EXTENSIONS`, sorted; otherwise the empty list. There is no
hidden-name filter here: only the extension is tested. -/
def get_videos (isDir : Bool) (entries : List Entry) : List String :=
  if !isDir then []
  else
    pySort ((entries.filter
      (fun e => e.kind = .file &&
        VIDEO_EXTENSIONS.contains (pyDropOne (pyLower (pySuffix e.name))))).map Entry.name)

/-- metadata extracted by `_get_video_metadata_ffprobe`: duration (seconds,
modelled exactly as a rational), width and height in pixels. -/
structure Metadata where
  duration : ℚ
  width : ℕ
  height : ℕ
deriving DecidableEq, Repr

/-- outcome of one ffprobe invocation. `ok` is a parsed metadata dictionary;
`failed` is every case where `_get_video_metadata_ffprobe` returns `None`
(non-zero exit, unparseable JSON, no video stream, missing fields);
`toolMissing` is the `FileNotFoundError` raised when the ffprobe binary is
absent from PATH. -/
inductive ProbeResult
| ok (m : Metadata)
| failed
| toolMissing
deriving DecidableEq, Repr

/-- outcome of the single ffmpeg concat invocation. `failed` carries the
stderr text of the `CalledProcessError`; `toolMissing` is the
`FileNotFoundError` for an absent ffmpeg binary; `unexpected` is any other
exception during the merge phase. -/
inductive MergerRun
| ok
| failed (stderr : String)
| toolMissing
| unexpected
deriving DecidableEq, Repr

/-- classification of how one `merge_video` call ended. The Python function
only returns a Bool; these labels name the distinct return sites. -/
inductive MergeOutcome
| alreadyExists
| success
| skippedNoVideos
| failedMetadata
| failedNoUsableParts
| failedNoReference
| failedResolutionMismatch
| failedMergeExecution
| failedToolMissing
| failedUnexpected
deriving DecidableEq, Repr

/-- mutable state of the metadata-validation loop in `merge_video`
(source lines 383-449): `total_duration`, `first_video_metadata`,
`valid_videos_for_merge`, plus two observables: the segments probed so far
and the error-artifact files written so far (name, content). -/
structure ValState where
  total : ℚ
  firstMeta : Option Metadata
  valid : List String
  probed : List String
  artifacts : List (String × String)
deriving DecidableEq, Repr

/-- how the validation loop ended: ran to completion, broke on a metadata
failure, broke on a resolution mismatch, or raised `FileNotFoundError`
because ffprobe is missing. -/
inductive ValOutcome
| completed (st : ValState)
| metadataError (st : ValState)
| resolutionMismatch (st : ValState)
| toolMissing (st : ValState)
deriving DecidableEq, Repr

/-- the metadata-validation loop of `merge_video` (source lines 391-449):
probe each part in order; a probe returning `None` writes
`<folder>_metadata_error.log` and breaks; a part with duration ≤ 0 is
skipped; the first surviving part fixes the reference metadata; a later
surviving part whose (width, height) pair differs writes
`<folder>_resolution_mismatch.log` and breaks; otherwise the part is
appended to the merge list and its duration added to the total. -/
def validateLoop (probe : String → ProbeResult) (fo : String) :
    List String → ValState → ValOutcome
| [], st => .completed st
| v :: vs, st =>
  let st1 : ValState := { st with probed := st.probed ++ [v] }
  match probe v with
  | .toolMissing => .toolMissing st1
  | .failed =>
    .metadataError { st1 with artifacts := st1.artifacts ++
      [(fo ++ "_metadata_error.log", "Failed to get metadata for video part: " ++ v)] }
  | .ok m =>
    if m.duration ≤ 0 then
      validateLoop probe fo vs st1
    else
      match st1.firstMeta with
      | none =>
        validateLoop probe fo vs
          { st1 with
            firstMeta := some m,
            valid := st1.valid ++ [v],
            total := st1.total + m.duration }
      | some f =>
        if (m.width, m.height) ≠ (f.width, f.height) then
          .resolutionMismatch { st1 with artifacts := st1.artifacts ++
            [(fo ++ "_resolution_mismatch.log",
              "Resolution mismatch detected in folder: " ++ fo ++
              " reference " ++ toString f.width ++ "x" ++ toString f.height ++
              " mismatch " ++ v ++ " " ++ toString m.width ++ "x" ++ toString m.height)] }
        else
          validateLoop probe fo vs
            { st1 with
              valid := st1.valid ++ [v],
              total := st1.total + m.duration }

/-- environment of one `merge_video` call: the folder, its (already sorted)
segment list, and the behaviour of the external world — ffprobe per path,
whether the deterministic output file already exists, what the single
ffmpeg invocation would do, and what probing the merged output would
return. -/
structure FolderEnv where
  folderName : String
  videos : List String
  probe : String → ProbeResult
  outputExists : Bool
  mergeRun : MergerRun
  mergedProbe : ProbeResult

/-- observable result of one `merge_video` call: its boolean return value,
the classified outcome, and the effect trace — which input segments were
probed, whether the merged output was probed, whether ffmpeg was invoked,
the concat-manifest lifecycle, the error artifacts written, advisory
warnings, whether the output file exists when the call returns, and the
final merge list with its summed duration. -/
structure MergeResult where
  ret : Bool
  outcome : MergeOutcome
  probedSegments : List String
  probedMergedOutput : Bool
  mergerInvoked : Bool
  manifestCreated : Bool
  manifestDeleted : Bool
  artifacts : List (String × String)
  warnings : List String
  outputExistsAtEnd : Bool
  validVideos : List String
  totalDuration : ℚ
deriving DecidableEq, Repr

/-- a `return False` taken before the merge phase: no manifest, no ffmpeg,
no output file. -/
def valFail (o : MergeOutcome) (st : ValState) : MergeResult :=
  { ret := false, outcome := o, probedSegments := st.probed,
    probedMergedOutput := false, mergerInvoked := false,
    manifestCreated := false, manifestDeleted := false,
    artifacts := st.artifacts, warnings := [], outputExistsAtEnd := false,
    validVideos := st.valid, totalDuration := st.total }

/-- the merge phase of `merge_video` (source lines 496-616): write the
concat manifest, invoke ffmpeg, and on success probe the merged output and
check its duration against the summed total with tolerance
`max(5.0, 0.02 * total)` — drift or an unreadable merged file only logs a
warning. ffmpeg failure writes `<folder>_ffmpeg_error.log` from stderr and
deletes the partial output; `FileNotFoundError` and unexpected exceptions
also return False. The `finally` block deletes the manifest on every one
of these paths. -/
def mergePhase (env : FolderEnv) (st : ValState) : MergeResult :=
  match env.mergeRun with
  | .ok =>
    match env.mergedProbe with
    | .toolMissing =>
      { ret := false, outcome := .failedToolMissing, probedSegments := st.probed,
        probedMergedOutput := true, mergerInvoked := true,
        manifestCreated := true, manifestDeleted := true,
        artifacts := st.artifacts, warnings := [], outputExistsAtEnd := true,
        validVideos := st.valid, totalDuration := st.total }
    | .failed =>
      { ret := true, outcome := .success, probedSegments := st.probed,
        probedMergedOutput := true, mergerInvoked := true,
        manifestCreated := true, manifestDeleted := true,
        artifacts := st.artifacts, warnings := ["merged_output_probe_failed"],
        outputExistsAtEnd := true, validVideos := st.valid, totalDuration := st.total }
    | .ok m =>
      if |st.total - m.duration| > max (5.0 : ℚ) (st.total * 0.02) then
        { ret := true, outcome := .success, probedSegments := st.probed,
          probedMergedOutput := true, mergerInvoked := true,
          manifestCreated := true, manifestDeleted := true,
          artifacts := st.artifacts, warnings := ["duration_mismatch"],
          outputExistsAtEnd := true, validVideos := st.valid, totalDuration := st.total }
      else
        { ret := true, outcome := .success, probedSegments := st.probed,
          probedMergedOutput := true, mergerInvoked := true,
          manifestCreated := true, manifestDeleted := true,
          artifacts := st.artifacts, warnings := [],
          outputExistsAtEnd := true, validVideos := st.valid, totalDuration := st.total }
  | .failed stderr =>
    { ret := false, outcome := .failedMergeExecution, probedSegments := st.probed,
      probedMergedOutput := false, mergerInvoked := true,
      manifestCreated := true, manifestDeleted := true,
      artifacts := st.artifacts ++ [(env.folderName ++ "_ffmpeg_error.log",
        if stderr = "" then "No stderr captured from FFmpeg." else stderr)],
      warnings := [], outputExistsAtEnd := false,
      validVideos := st.valid, totalDuration := st.total }
  | .toolMissing =>
    { ret := false, outcome := .failedToolMissing, probedSegments := st.probed,
      probedMergedOutput := false, mergerInvoked := true,
      manifestCreated := true, manifestDeleted := true,
      artifacts := st.artifacts, warnings := [], outputExistsAtEnd := false,
      validVideos := st.valid, totalDuration := st.total }
  | .unexpected =>
    { ret := false, outcome := .failedUnexpected, probedSegments := st.probed,
      probedMergedOutput := false, mergerInvoked := true,
      manifestCreated := true, manifestDeleted := true,
      artifacts := st.artifacts, warnings := [], outputExistsAtEnd := false,
      validVideos := st.valid, totalDuration := st.total }

/-- `merge_video(videos, source_path, output_dir, log_dir)` (source lines
338-616). Empty list: return False. Output file already present: return
True immediately. Then the validation loop; a `FileNotFoundError` from it
is caught (lines 484-489) and becomes `return False`. An empty merge list
is "no usable parts" (lines 457-459). The defensive re-probe of lines
469-481 covers `first_video_metadata` being unset with a non-empty merge
list. Otherwise the merge phase runs. The Python function catches every
exception it can see, so it always returns; nothing propagates to `main`. -/
def merge_video (env : FolderEnv) : MergeResult :=
  if env.videos.isEmpty then
    { ret := false, outcome := .skippedNoVideos, probedSegments := [],
      probedMergedOutput := false, mergerInvoked := false,
      manifestCreated := false, manifestDeleted := false, artifacts := [],
      warnings := [], outputExistsAtEnd := env.outputExists,
      validVideos := [], totalDuration := 0 }
  else if env.outputExists then
    { ret := true, outcome := .alreadyExists, probedSegments := [],
      probedMergedOutput := false, mergerInvoked := false,
      manifestCreated := false, manifestDeleted := false, artifacts := [],
      warnings := [], outputExistsAtEnd := true,
      validVideos := [], totalDuration := 0 }
  else
    match validateLoop env.probe env.folderName env.videos ⟨0, none, [], [], []⟩ with
    | .toolMissing st => valFail .failedToolMissing st
    | .metadataError st => valFail .failedMetadata st
    | .resolutionMismatch st => valFail .failedResolutionMismatch st
    | .completed st =>
      if st.valid.isEmpty then valFail .failedNoUsableParts st
      else
        match st.firstMeta with
        | some _ => mergePhase env st
        | none =>
          match env.probe (st.valid.headD "") with
          | .toolMissing =>
            valFail .failedToolMissing
              { st with probed := st.probed ++ [st.valid.headD ""] }
          | .failed =>
            valFail .failedNoReference
              { st with probed := st.probed ++ [st.valid.headD ""] }
          | .ok m =>
            mergePhase env
              { st with firstMeta := some m, probed := st.probed ++ [st.valid.headD ""] }

/-- counters and attempt order of the folder loop in `main` (source lines
699-753): `processed_count`, `success_count`, `fail_count`, plus the
names of the folders whose processing was started, in order. -/
structure BatchState where
  processed : ℕ
  succ : ℕ
  fail : ℕ
  attempted : List String
deriving DecidableEq, Repr

/-- the folder loop of `main` (source lines 708-753): re-check the
`_`/`.` prefix, count the folder as processed, classify empty folders as
failed without calling `merge_video`, and otherwise count `merge_video`'s
boolean result. `merge_video` catches `FileNotFoundError` itself and
returns False instead, so the `except FileNotFoundError: break` handler of
lines 736-742 never fires; it has no corresponding branch here because
`merge_video` is a total function into `MergeResult`. -/
def runBatch : List FolderEnv → BatchState → BatchState
| [], st => st
| f :: fs, st =>
  if startsHidden f.folderName then
    runBatch fs st
  else
    let st1 : BatchState :=
      { st with
        processed := st.processed + 1,
        attempted := st.attempted ++ [f.folderName] }
    if f.videos.isEmpty then
      runBatch fs { st1 with fail := st1.fail + 1 }
    else if (merge_video f).ret then
      runBatch fs { st1 with succ := st1.succ + 1 }
    else
      runBatch fs { st1 with fail := st1.fail + 1 }

/-- probe behaviour for a folder whose two parts share one resolution. -/
def allValidProbe : String → ProbeResult := fun v =>
  if v = "a.mp4" then .ok ⟨30, 1920, 1080⟩
  else if v = "b.mp4" then .ok ⟨45, 1920, 1080⟩
  else .failed

/-- concrete folder whose two parts are both valid and consistent. -/
def allValidEnv : FolderEnv :=
  ⟨"A", ["a.mp4", "b.mp4"], allValidProbe, false, .ok, .failed⟩

/-- probe behaviour with a resolution mismatch at the second part. -/
def mismatchProbe : String → ProbeResult := fun v =>
  if v = "a.mp4" then .ok ⟨30, 1920, 1080⟩
  else if v = "b.mp4" then .ok ⟨45, 1280, 720⟩
  else if v = "c.mp4" then .ok ⟨10, 1920, 1080⟩
  else .failed

/-- concrete folder with a resolution mismatch at its second part. -/
def mismatchEnv : FolderEnv :=
  ⟨"B", ["a.mp4", "b.mp4", "c.mp4"], mismatchProbe, false, .ok, .failed⟩

/-- probe behaviour where one part has duration zero. -/
def mixedProbe : String → ProbeResult := fun v =>
  if v = "a.mp4" then .ok ⟨30, 1920, 1080⟩
  else if v = "z.mp4" then .ok ⟨0, 1920, 1080⟩
  else .failed

/-- concrete folder with one zero-duration part and one valid part. -/
def mixedEnv : FolderEnv :=
  ⟨"M", ["z.mp4", "a.mp4"], mixedProbe, false, .ok, .failed⟩

/-- concrete folder whose merged output file already exists. -/
def existingOutputEnv : FolderEnv :=
  ⟨"E", ["p1.mp4"], fun _ => .failed, true, .ok, .failed⟩

/-- concrete folder where the ffmpeg invocation fails with stderr. -/
def mergeFailEnv : FolderEnv :=
  ⟨"F", ["a.mp4"], allValidProbe, false, .failed "concat demuxer error", .failed⟩

/-- concrete folder where the merge succeeds but the merged output cannot
be probed. -/
def advisoryEnv : FolderEnv :=
  ⟨"D", ["a.mp4"], allValidProbe, false, .ok, .failed⟩

/-- concrete folder whose first probe raises `FileNotFoundError`
(ffprobe binary absent). -/
def toolMissingEnv : FolderEnv :=
  ⟨"T", ["a.mp4"], fun _ => .toolMissing, false, .ok, .failed⟩

/-- concrete folder after `toolMissingEnv` in scan order; its output
already exists, so it short-circuits to success if it is attempted. -/
def afterToolMissingEnv : FolderEnv :=
  ⟨"U", ["b.mp4"], allValidProbe, true, .ok, .failed⟩

/-- probe behaviour for the zero-duration skip step. -/
def zeroProbe : String → ProbeResult := fun v =>
  if v = "z.mp4" then .ok ⟨0, 1280, 720⟩ else .ok ⟨30, 1920, 1080⟩

/-- the metadata `allValidProbe` reports, as a plain function. -/
def allValidMeta : String → Metadata := fun v =>
  if v = "a.mp4" then ⟨30, 1920, 1080⟩ else ⟨45, 1920, 1080⟩

/-- the metadata `mismatchProbe` reports, as a plain function. -/
def mismatchMeta : String → Metadata := fun v =>
  if v = "a.mp4" then ⟨30, 1920, 1080⟩
  else if v = "b.mp4" then ⟨45, 1280, 720⟩
  else ⟨10, 1920, 1080⟩

/-- the metadata `mixedProbe` reports, as a plain function. -/
def mixedMeta : String → Metadata := fun v =>
  if v = "a.mp4" then ⟨30, 1920, 1080⟩ else ⟨0, 1920, 1080⟩

section Theorems

/-- membership in the sorted list is membership in the unsorted one. -/
theorem mem_pySort (a : String) (l : List String) : a ∈ pySort l ↔ a ∈ l := by
  simp [pySort, List.mem_insertionSort]

/-- every path through the merge phase invokes ffmpeg, creates the concat
manifest, deletes it again, and reports the validated merge set and its
summed duration unchanged. -/
theorem mergePhase_trace (env : FolderEnv) (st : ValState) :
    (mergePhase env st).mergerInvoked = true ∧
    (mergePhase env st).manifestCreated = true ∧
    (mergePhase env st).manifestDeleted = true ∧
    (mergePhase env st).validVideos = st.valid ∧
    (mergePhase env st).totalDuration = st.total ∧
    (mergePhase env st).probedSegments = st.probed := by
  unfold mergePhase
  split
  · split
    · simp
    · simp
    · split <;> simp
  · simp
  · simp
  · simp

/-- the merge phase returns True exactly on the success outcome. -/
theorem mergePhase_ret_iff (env : FolderEnv) (st : ValState) :
    (mergePhase env st).ret = true ↔
      ((mergePhase env st).outcome = .alreadyExists ∨
       (mergePhase env st).outcome = .success) := by
  unfold mergePhase
  split
  · split
    · simp
    · simp
    · split <;> simp
  · simp
  · simp
  · simp

/-- `merge_video` either went through the merge phase, or stopped earlier
without invoking ffmpeg and without creating the manifest. -/
theorem merge_video_shape (env : FolderEnv) :
    (∃ st : ValState, merge_video env = mergePhase env st) ∨
    ((merge_video env).mergerInvoked = false ∧
     (merge_video env).manifestCreated = false ∧
     (merge_video env).manifestDeleted = false) := by
  unfold merge_video
  split
  · right; exact ⟨rfl, rfl, rfl⟩
  · split
    · right; exact ⟨rfl, rfl, rfl⟩
    · split
      · right; exact ⟨rfl, rfl, rfl⟩
      · right; exact ⟨rfl, rfl, rfl⟩
      · right; exact ⟨rfl, rfl, rfl⟩
      · split
        · right; exact ⟨rfl, rfl, rfl⟩
        · split
          · left; exact ⟨_, rfl⟩
          · split
            · right; exact ⟨rfl, rfl, rfl⟩
            · right; exact ⟨rfl, rfl, rfl⟩
            · left; exact ⟨_, rfl⟩

/-- `merge_video` returns True exactly when its outcome is AlreadyExists
or Success; in particular every tool-missing, metadata, mismatch, merge
or unexpected failure counts the folder as failed in `main`. -/
theorem merge_video_ret_iff (env : FolderEnv) :
    (merge_video env).ret = true ↔
      ((merge_video env).outcome = .alreadyExists ∨
       (merge_video env).outcome = .success) := by
  unfold merge_video
  split
  · simp
  · split
    · simp
    · split
      · simp [valFail]
      · simp [valFail]
      · simp [valFail]
      · split
        · simp [valFail]
        · split
          · exact mergePhase_ret_iff ..
          · split
            · simp [valFail]
            · simp [valFail]
            · exact mergePhase_ret_iff ..

/-- the folder loop attempts every folder whose name does not begin with
`_` or `.`, in order, no matter how earlier folders fared. -/
theorem runBatch_attempted (fs : List FolderEnv) : ∀ st : BatchState,
    (runBatch fs st).attempted = st.attempted ++
      (fs.filter fun f => !startsHidden f.folderName).map FolderEnv.folderName := by
  induction fs with
  | nil => intro st; simp [runBatch]
  | cons f fs ih =>
    intro st
    by_cases hh : startsHidden f.folderName = true
    · unfold runBatch
      simp only [hh, if_true]
      rw [ih]
      simp [List.filter_cons, hh]
    · have hh2 : startsHidden f.folderName = false := by simpa using hh
      unfold runBatch
      simp only [hh2, Bool.false_eq_true, if_false, List.filter_cons, Bool.not_false]
      simp only [if_true]
      split
      · rw [ih]; simp
      · split
        · rw [ih]; simp
        · rw [ih]; simp

/-- walking the validation loop over a block of segments that all probe
successfully and whose positive-duration members all match resolution
(W, H) — compatible with the reference metadata already in the state —
skips the nonpositive ones, appends the positive ones, accumulates their
durations, fixes the reference from the first positive one, and writes no
artifact. -/
theorem validateLoop_matching (probe : String → ProbeResult) (fo : String)
    (meta : String → Metadata) (W H : ℕ) :
    ∀ (pre rest : List String) (t : ℚ) (fm : Option Metadata)
      (vl pb : List String) (ar : List (String × String)),
    (∀ v ∈ pre, probe v = .ok (meta v)) →
    (∀ v ∈ pre, 0 < (meta v).duration → (meta v).width = W ∧ (meta v).height = H) →
    (fm = none ∨ ∃ f, fm = some f ∧ f.width = W ∧ f.height = H) →
    validateLoop probe fo (pre ++ rest) ⟨t, fm, vl, pb, ar⟩ =
      validateLoop probe fo rest
        ⟨t + ((pre.filter fun v => decide (0 < (meta v).duration)).map
            fun v => (meta v).duration).sum,
          fm <|> ((pre.filter fun v => decide (0 < (meta v).duration)).head?.map meta),
          vl ++ pre.filter (fun v => decide (0 < (meta v).duration)),
          pb ++ pre, ar⟩ := by
  intro pre
  induction pre with
  | nil =>
    intro rest t fm vl pb ar hok hres hfm
    simp
  | cons v vs ih =>
    intro rest t fm vl pb ar hok hres hfm
    have hv : probe v = .ok (meta v) := hok v (by simp)
    rw [List.cons_append]
    by_cases hd : (meta v).duration ≤ 0
    · have hstep : validateLoop probe fo (v :: (vs ++ rest)) ⟨t, fm, vl, pb, ar⟩ =
          validateLoop probe fo (vs ++ rest) ⟨t, fm, vl, pb ++ [v], ar⟩ := by
        simp [validateLoop, hv, hd]
      rw [hstep, ih rest t fm vl (pb ++ [v]) ar
        (fun w hw => hok w (by simp [hw])) (fun w hw => hres w (by simp [hw])) hfm]
      have hnp : ¬ 0 < (meta v).duration := not_lt.mpr hd
      simp [List.filter_cons, hnp, List.append_assoc]
    · have hp : 0 < (meta v).duration := not_le.mp hd
      rcases hfm with hfm | ⟨f, hfm, hfw, hfh⟩
      · subst hfm
        have hstep : validateLoop probe fo (v :: (vs ++ rest)) ⟨t, none, vl, pb, ar⟩ =
            validateLoop probe fo (vs ++ rest)
              ⟨t + (meta v).duration, some (meta v), vl ++ [v], pb ++ [v], ar⟩ := by
          simp [validateLoop, hv, hd]
        rw [hstep, ih rest _ _ _ _ _
          (fun w hw => hok w (by simp [hw])) (fun w hw => hres w (by simp [hw]))
          (Or.inr ⟨meta v, rfl, (hres v (by simp) hp).1, (hres v (by simp) hp).2⟩)]
        congr 1
        simp [List.filter_cons, hp, List.append_assoc, add_assoc]
      · subst hfm
        have hmw : (meta v).width = W ∧ (meta v).height = H := hres v (by simp) hp
        have hcond : ¬ (((meta v).width, (meta v).height) ≠ (f.width, f.height)) := by
          simp [hmw.1, hmw.2, hfw, hfh]
        have hstep : validateLoop probe fo (v :: (vs ++ rest)) ⟨t, some f, vl, pb, ar⟩ =
            validateLoop probe fo (vs ++ rest)
              ⟨t + (meta v).duration, some f, vl ++ [v], pb ++ [v], ar⟩ := by
          simp [validateLoop, hv, hd, hcond]
        rw [hstep, ih rest _ _ _ _ _
          (fun w hw => hok w (by simp [hw])) (fun w hw => hres w (by simp [hw]))
          (Or.inr ⟨f, rfl, hfw, hfh⟩)]
        congr 1
        simp [List.filter_cons, hp, List.append_assoc, add_assoc]

/-- running the validation loop over the whole segment list from the
initial state, when every probe succeeds and all positive-duration
segments share resolution (W, H). -/
theorem validateLoop_all (probe : String → ProbeResult) (fo : String)
    (meta : String → Metadata) (W H : ℕ) (videos : List String)
    (hok : ∀ v ∈ videos, probe v = .ok (meta v))
    (hres : ∀ v ∈ videos, 0 < (meta v).duration →
      (meta v).width = W ∧ (meta v).height = H) :
    validateLoop probe fo videos ⟨0, none, [], [], []⟩ =
      .completed ⟨((videos.filter fun v => decide (0 < (meta v).duration)).map
          fun v => (meta v).duration).sum,
        (videos.filter fun v => decide (0 < (meta v).duration)).head?.map meta,
        videos.filter (fun v => decide (0 < (meta v).duration)),
        videos, []⟩ := by
  have h := validateLoop_matching probe fo meta W H videos [] 0 none [] [] []
    hok hres (Or.inl rfl)
  rw [List.append_nil] at h
  rw [h]
  simp [validateLoop]

/-- when validation completes with a non-empty merge list and a reference
metadata in hand, `merge_video` proceeds to the merge phase with that
state. -/
theorem merge_video_eq_of_completed_some (env : FolderEnv) (st : ValState)
    (f : Metadata)
    (h1 : env.videos.isEmpty = false) (hout : env.outputExists = false)
    (hval : validateLoop env.probe env.folderName env.videos ⟨0, none, [], [], []⟩ =
      .completed st)
    (hvne : st.valid.isEmpty = false) (hfm : st.firstMeta = some f) :
    merge_video env = mergePhase env st := by
  unfold merge_video
  simp only [h1, Bool.false_eq_true, if_false, hout, hval, hvne, hfm]

/-- when validation completes but the merge list is empty, `merge_video`
returns the no-usable-parts failure. -/
theorem merge_video_eq_of_completed_noValid (env : FolderEnv) (st : ValState)
    (h1 : env.videos.isEmpty = false) (hout : env.outputExists = false)
    (hval : validateLoop env.probe env.folderName env.videos ⟨0, none, [], [], []⟩ =
      .completed st)
    (hv : st.valid.isEmpty = true) :
    merge_video env = valFail .failedNoUsableParts st := by
  unfold merge_video
  simp only [h1, Bool.false_eq_true, if_false, hout, hval, hv, if_true]

/-- when validation breaks on a resolution mismatch, `merge_video` returns
that failure without reaching the merge phase. -/
theorem merge_video_eq_of_mismatch (env : FolderEnv) (st : ValState)
    (h1 : env.videos.isEmpty = false) (hout : env.outputExists = false)
    (hval : validateLoop env.probe env.folderName env.videos ⟨0, none, [], [], []⟩ =
      .resolutionMismatch st) :
    merge_video env = valFail .failedResolutionMismatch st := by
  unfold merge_video
  simp only [h1, Bool.false_eq_true, if_false, hout, hval]

/-- if ffmpeg was invoked, `merge_video` went through the merge phase. -/
theorem merge_video_invoked (env : FolderEnv)
    (h : (merge_video env).mergerInvoked = true) :
    ∃ st : ValState, merge_video env = mergePhase env st := by
  rcases merge_video_shape env with h2 | ⟨h1, _, _⟩
  · exact h2
  · rw [h1] at h
    simp at h

/-- Claim C1 counterexample: ffprobe goes missing while folder T is being
processed (its probe raises `FileNotFoundError`), yet the next folder U is
still attempted — and even succeeds — because `merge_video` catches the
exception and returns False instead of letting it reach the halting
handler in `main`. The claim predicts U is never attempted. -/
theorem toolMissing_midrun_batch_continues_cex :
    (merge_video toolMissingEnv).outcome = .failedToolMissing ∧
    (merge_video toolMissingEnv).ret = false ∧
    (runBatch [toolMissingEnv, afterToolMissingEnv] ⟨0, 0, 0, []⟩).attempted = ["T", "U"] ∧
    (runBatch [toolMissingEnv, afterToolMissingEnv] ⟨0, 0, 0, []⟩).fail = 1 ∧
    (runBatch [toolMissingEnv, afterToolMissingEnv] ⟨0, 0, 0, []⟩).succ = 1 := by
  decide

/-- Claim C1 (amended): if a required external tool is found missing while
a folder is being processed, `merge_video` catches the error and returns
False, so that folder is counted as failed; the batch then continues with
the remaining folders — the loop attempts every non-hidden folder in
order regardless of earlier outcomes, and the `except FileNotFoundError`
halt branch in `main` is unreachable because `merge_video` never lets the
exception propagate. -/
theorem toolMissing_midrun_marks_failed_batch_continues :
    (∀ env : FolderEnv, (merge_video env).ret = true ↔
      ((merge_video env).outcome = .alreadyExists ∨
       (merge_video env).outcome = .success)) ∧
    (∀ (fs : List FolderEnv) (st : BatchState),
      (runBatch fs st).attempted = st.attempted ++
        (fs.filter fun f => !startsHidden f.folderName).map FolderEnv.folderName) :=
  ⟨merge_video_ret_iff, fun fs st => runBatch_attempted fs st⟩

/-- Claim C2 counterexample: `get_videos` has no leading-underscore or
leading-dot filter, so a file named `_a.mp4` (or `.b.mkv`) is returned as
a segment, contradicting the claim that such files are ignored on both
levels of the scan. -/
theorem get_videos_keeps_hidden_names_cex :
    "_a.mp4" ∈ get_videos true [⟨"_a.mp4", .file⟩] ∧
    ".b.mkv" ∈ get_videos true [⟨".b.mkv", .file⟩] := by
  decide

/-- Claim C2 (amended): the `_`/`.` prefix filter applies only at the
directory level: no name returned by `get_dirs` begins with `_` or `.`,
while `get_videos` selects files purely by recognized extension, so a
file whose extension matches is returned even when its name begins with
`_` or `.`. -/
theorem hidden_name_filter_only_in_get_dirs :
    (∀ (b : Bool) (entries : List Entry) (name : String),
      name ∈ get_dirs b entries → startsHidden name = false) ∧
    (∀ (entries : List Entry) (e : Entry), e ∈ entries → e.kind = .file →
      VIDEO_EXTENSIONS.contains (pyDropOne (pyLower (pySuffix e.name))) = true →
      e.name ∈ get_videos true entries) := by
  constructor
  · intro b entries name h
    unfold get_dirs at h
    split at h
    · simp at h
    · rw [mem_pySort] at h
      simp only [List.mem_map] at h
      obtain ⟨e, he, hname⟩ := h
      rw [List.mem_filter] at he
      have h2 := he.2
      simp only [Bool.and_eq_true, Bool.not_eq_true'] at h2
      rw [← hname]
      exact h2.2
  · intro entries e he hk hext
    unfold get_videos
    simp only [Bool.not_true, Bool.false_eq_true, if_false]
    rw [mem_pySort]
    refine List.mem_map.mpr ⟨e, ?_, rfl⟩
    rw [List.mem_filter]
    refine ⟨he, ?_⟩
    simp only [hk, Bool.and_eq_true, decide_eq_true_eq]
    exact ⟨trivial, hext⟩

/-- Claim C2 witness for the amended statement: a non-hidden directory
name passes `get_dirs`, and a hidden-named file with a recognized
extension is indeed listed by `get_videos`. -/
theorem hidden_name_filter_only_in_get_dirs_witness :
    startsHidden "b" = false ∧
    "_a.mp4" ∈ get_videos true [⟨"_a.mp4", .file⟩, ⟨"b", .dir⟩] := by
  constructor
  · exact hidden_name_filter_only_in_get_dirs.1 true [⟨"b", .dir⟩] "b" (by decide)
  · exact hidden_name_filter_only_in_get_dirs.2 [⟨"_a.mp4", .file⟩, ⟨"b", .dir⟩]
      ⟨"_a.mp4", .file⟩ (by decide) (by decide) (by decide)

/-- Claim C3: when the deterministic output file for a folder already
exists, `merge_video` returns True immediately with the AlreadyExists
outcome: it probes nothing, never invokes ffmpeg, creates no manifest,
and the pre-existing output file is still there untouched at the end. -/
theorem merge_video_existing_output_short_circuits (env : FolderEnv)
    (hne : env.videos ≠ []) (hex : env.outputExists = true) :
    (merge_video env).ret = true ∧
    (merge_video env).outcome = .alreadyExists ∧
    (merge_video env).probedSegments = [] ∧
    (merge_video env).probedMergedOutput = false ∧
    (merge_video env).mergerInvoked = false ∧
    (merge_video env).manifestCreated = false ∧
    (merge_video env).outputExistsAtEnd = true := by
  have h1 : env.videos.isEmpty = false := by
    simpa [List.isEmpty_iff] using hne
  unfold merge_video
  simp [h1, hex]

/-- Claim C3 witness: the short circuit on a concrete folder whose output
exists. -/
theorem merge_video_existing_output_short_circuits_witness :
    (merge_video existingOutputEnv).ret = true ∧
    (merge_video existingOutputEnv).outcome = .alreadyExists ∧
    (merge_video existingOutputEnv).probedSegments = [] ∧
    (merge_video existingOutputEnv).probedMergedOutput = false ∧
    (merge_video existingOutputEnv).mergerInvoked = false ∧
    (merge_video existingOutputEnv).manifestCreated = false ∧
    (merge_video existingOutputEnv).outputExistsAtEnd = true :=
  merge_video_existing_output_short_circuits existingOutputEnv (by decide) rfl

/-- Claim C6: the concat manifest is created exactly when the merge phase
is reached, and on every exit path of the merge phase — success, merge
failure, tool missing, or unexpected error — the `finally` block deletes
it, so it is never left behind whatever the outcome. -/
theorem merge_video_manifest_deleted_on_every_path (env : FolderEnv) :
    (merge_video env).manifestCreated = (merge_video env).mergerInvoked ∧
    (merge_video env).manifestDeleted = (merge_video env).manifestCreated := by
  rcases merge_video_shape env with ⟨st, he⟩ | ⟨h1, h2, h3⟩
  · rw [he]
    obtain ⟨a, b, c, _, _⟩ := mergePhase_trace env st
    rw [a, b, c]
    exact ⟨rfl, rfl⟩
  · rw [h1, h2, h3]
    exact ⟨rfl, rfl⟩

/-- Claim C10: in the validation loop the nonpositive-duration check comes
before the resolution check: a segment that probes fine but has duration
≤ 0 is skipped with only the probe recorded — the loop state is otherwise
unchanged, so the segment neither establishes the reference metadata nor
can produce the resolution-mismatch break, whatever its width and height
are (the right-hand side does not depend on them). -/
theorem validateLoop_nonpositive_skipped_before_resolution
    (probe : String → ProbeResult) (fo z : String) (rest : List String)
    (st : ValState) (m : Metadata)
    (hok : probe z = .ok m) (hd : m.duration ≤ 0) :
    validateLoop probe fo (z :: rest) st =
      validateLoop probe fo rest { st with probed := st.probed ++ [z] } := by
  simp [validateLoop, hok, hd]

/-- Claim C10 witness: a zero-duration 1280×720 segment is skipped even
though the folder's reference resolution will be 1920×1080. -/
theorem validateLoop_nonpositive_skipped_before_resolution_witness :
    validateLoop zeroProbe "Z" ["z.mp4", "a.mp4"] ⟨0, none, [], [], []⟩ =
      validateLoop zeroProbe "Z" ["a.mp4"] ⟨0, none, [], ["z.mp4"], []⟩ :=
  validateLoop_nonpositive_skipped_before_resolution zeroProbe "Z" "z.mp4"
    ["a.mp4"] ⟨0, none, [], [], []⟩ ⟨0, 1280, 720⟩ (by decide) (by decide)

/-- Claim C5: when every segment probes successfully with strictly
positive duration and the same resolution, validation keeps exactly the
given segments in their original order, probes each of them once in
order, and the expected total duration is the exact sum of the individual
durations. -/
theorem merge_video_all_valid_exact_merge_set (env : FolderEnv)
    (meta : String → Metadata) (W H : ℕ)
    (hne : env.videos ≠ []) (hout : env.outputExists = false)
    (hok : ∀ v ∈ env.videos, env.probe v = .ok (meta v))
    (hpos : ∀ v ∈ env.videos, 0 < (meta v).duration)
    (hres : ∀ v ∈ env.videos, (meta v).width = W ∧ (meta v).height = H) :
    (merge_video env).validVideos = env.videos ∧
    (merge_video env).totalDuration =
      (env.videos.map fun v => (meta v).duration).sum ∧
    (merge_video env).probedSegments = env.videos := by
  have hfilter : env.videos.filter (fun v => decide (0 < (meta v).duration)) =
      env.videos :=
    List.filter_eq_self.mpr (fun v hv => by simp [hpos v hv])
  have hval := validateLoop_all env.probe env.folderName meta W H env.videos hok
    (fun v hv _ => hres v hv)
  rw [hfilter] at hval
  have h1 : env.videos.isEmpty = false := by simpa [List.isEmpty_iff] using hne
  obtain ⟨v0, vs, hv0⟩ := List.exists_cons_of_ne_nil hne
  have hvne : env.videos.isEmpty = false := h1
  have hhead : env.videos.head?.map meta = some (meta v0) := by rw [hv0]; rfl
  rw [hhead] at hval
  have he := merge_video_eq_of_completed_some env _ (meta v0) h1 hout hval h1 rfl
  rw [he]
  obtain ⟨_, _, _, hvv, htd, hpb⟩ := mergePhase_trace env
    ⟨((env.videos.map fun v => (meta v).duration)).sum,
      some (meta v0), env.videos, env.videos, []⟩
  exact ⟨hvv, htd, hpb⟩

/-- Claim C5 witness: a folder of two 1920×1080 parts of 30s and 45s is
validated to exactly those two parts with the exact summed duration. -/
theorem merge_video_all_valid_exact_merge_set_witness :
    (merge_video allValidEnv).validVideos = allValidEnv.videos ∧
    (merge_video allValidEnv).totalDuration =
      (allValidEnv.videos.map fun v => (allValidMeta v).duration).sum ∧
    (merge_video allValidEnv).probedSegments = allValidEnv.videos :=
  merge_video_all_valid_exact_merge_set allValidEnv allValidMeta 1920 1080
    (by decide) rfl (by decide) (by decide) (by decide)

/-- one validation step on a positive-duration segment whose (width,
height) differs from the reference: the loop writes the mismatch artifact
and breaks. -/
theorem validateLoop_mismatch_step (probe : String → ProbeResult)
    (fo bad : String) (post : List String) (m f : Metadata)
    (t : ℚ) (vl pb : List String) (ar : List (String × String))
    (hok : probe bad = .ok m) (hpos : 0 < m.duration)
    (hne : (m.width, m.height) ≠ (f.width, f.height)) :
    validateLoop probe fo (bad :: post) ⟨t, some f, vl, pb, ar⟩ =
      .resolutionMismatch ⟨t, some f, vl, pb ++ [bad], ar ++
        [(fo ++ "_resolution_mismatch.log",
          "Resolution mismatch detected in folder: " ++ fo ++
          " reference " ++ toString f.width ++ "x" ++ toString f.height ++
          " mismatch " ++ bad ++ " " ++ toString m.width ++ "x" ++ toString m.height)]⟩ := by
  have hd : ¬ m.duration ≤ 0 := not_le.mpr hpos
  simp [validateLoop, hok, hd, hne]

/-- Claim C4: a folder whose segments probe fine up to some segment `bad`
of positive duration whose (width, height) — compared for exact equality
only — differs from the reference resolution established by the first
positive-duration segment, fails with the resolution-mismatch outcome:
`merge_video` returns False, validation stops at `bad` (nothing after it
is probed), the mismatch artifact is written, and ffmpeg is never
invoked. -/
theorem merge_video_resolution_mismatch_aborts (env : FolderEnv)
    (meta : String → Metadata) (W H : ℕ) (pre : List String) (bad : String)
    (post : List String)
    (hsplit : env.videos = pre ++ bad :: post)
    (hout : env.outputExists = false)
    (hokpre : ∀ v ∈ pre, env.probe v = .ok (meta v))
    (hrespre : ∀ v ∈ pre, 0 < (meta v).duration →
      (meta v).width = W ∧ (meta v).height = H)
    (hpospre : ∃ v ∈ pre, 0 < (meta v).duration)
    (hokbad : env.probe bad = .ok (meta bad))
    (hposbad : 0 < (meta bad).duration)
    (hbad : (meta bad).width ≠ W ∨ (meta bad).height ≠ H) :
    (merge_video env).ret = false ∧
    (merge_video env).outcome = .failedResolutionMismatch ∧
    (merge_video env).mergerInvoked = false ∧
    (merge_video env).manifestCreated = false ∧
    (merge_video env).probedSegments = pre ++ [bad] ∧
    ∃ c, (env.folderName ++ "_resolution_mismatch.log", c) ∈
      (merge_video env).artifacts := by
  have h1 : env.videos.isEmpty = false := by
    rw [hsplit]; cases pre <;> rfl
  have hfne : (pre.filter fun v => decide (0 < (meta v).duration)) ≠ [] := by
    obtain ⟨v, hv, hp⟩ := hpospre
    intro hcon
    have hm : v ∈ pre.filter fun v => decide (0 < (meta v).duration) :=
      List.mem_filter.mpr ⟨hv, by simpa using hp⟩
    rw [hcon] at hm
    exact absurd hm (List.not_mem_nil v)
  obtain ⟨v0, vs0, hv0⟩ := List.exists_cons_of_ne_nil hfne
  have hv0mem : v0 ∈ pre.filter fun v => decide (0 < (meta v).duration) := by
    rw [hv0]; exact List.mem_cons_self ..
  have hv0split := List.mem_filter.mp hv0mem
  have hv0pos : 0 < (meta v0).duration := by simpa using hv0split.2
  have hf0 : (meta v0).width = W ∧ (meta v0).height = H :=
    hrespre v0 hv0split.1 hv0pos
  have hL := validateLoop_matching env.probe env.folderName meta W H pre
    (bad :: post) 0 none [] [] [] hokpre hrespre (Or.inl rfl)
  have hfm1 : (none <|>
      ((pre.filter fun v => decide (0 < (meta v).duration)).head?.map meta)) =
      some (meta v0) := by
    rw [hv0]; rfl
  rw [hfm1] at hL
  have hcond : ((meta bad).width, (meta bad).height) ≠
      ((meta v0).width, (meta v0).height) := by
    rw [hf0.1, hf0.2]
    intro hco
    rw [Prod.mk.injEq] at hco
    rcases hbad with hb | hb
    · exact hb hco.1
    · exact hb hco.2
  rw [validateLoop_mismatch_step env.probe env.folderName bad post (meta bad)
    (meta v0) _ _ _ _ hokbad hposbad hcond] at hL
  rw [← hsplit] at hL
  have he := merge_video_eq_of_mismatch env _ h1 hout hL
  rw [he]
  refine ⟨rfl, rfl, rfl, rfl, ?_, ?_⟩
  · simp [valFail]
  · refine ⟨"Resolution mismatch detected in folder: " ++ env.folderName ++
      " reference " ++ toString (meta v0).width ++ "x" ++
      toString (meta v0).height ++ " mismatch " ++ bad ++ " " ++
      toString (meta bad).width ++ "x" ++ toString (meta bad).height, ?_⟩
    simp [valFail]

/-- Claim C4 witness: folder B's first part is 1920×1080 for 30s, its
second is 1280×720 for 45s; the folder fails with the mismatch outcome,
its third part is never probed, and ffmpeg is never invoked. -/
theorem merge_video_resolution_mismatch_aborts_witness :
    (merge_video mismatchEnv).ret = false ∧
    (merge_video mismatchEnv).outcome = .failedResolutionMismatch ∧
    (merge_video mismatchEnv).mergerInvoked = false ∧
    (merge_video mismatchEnv).manifestCreated = false ∧
    (merge_video mismatchEnv).probedSegments = ["a.mp4", "b.mp4"] ∧
    ∃ c, ("B_resolution_mismatch.log", c) ∈ (merge_video mismatchEnv).artifacts :=
  merge_video_resolution_mismatch_aborts mismatchEnv mismatchMeta 1920 1080
    ["a.mp4"] "b.mp4" ["c.mp4"] rfl rfl (by decide) (by decide)
    ⟨"a.mp4", by decide, by decide⟩ (by decide) (by decide) (by decide)

/-- Claim C7: if the ffmpeg invocation fails, `merge_video` returns False
with the merge-execution failure outcome, the `<folder>_ffmpeg_error.log`
artifact holding ffmpeg's stderr is written, and the partially written
output file is deleted before the failure is reported, so no output file
remains. -/
theorem merge_video_merger_failure_cleanup (env : FolderEnv) (stderr : String)
    (hrun : env.mergeRun = .failed stderr)
    (hmi : (merge_video env).mergerInvoked = true) :
    (merge_video env).ret = false ∧
    (merge_video env).outcome = .failedMergeExecution ∧
    (env.folderName ++ "_ffmpeg_error.log",
      if stderr = "" then "No stderr captured from FFmpeg." else stderr) ∈
      (merge_video env).artifacts ∧
    (merge_video env).outputExistsAtEnd = false := by
  obtain ⟨st, he⟩ := merge_video_invoked env hmi
  rw [he]
  simp [mergePhase, hrun]

/-- Claim C7 witness: a concrete folder whose single valid part merges
into a failing ffmpeg run. -/
theorem merge_video_merger_failure_cleanup_witness :
    (merge_video mergeFailEnv).ret = false ∧
    (merge_video mergeFailEnv).outcome = .failedMergeExecution ∧
    ("F_ffmpeg_error.log", "concat demuxer error") ∈
      (merge_video mergeFailEnv).artifacts ∧
    (merge_video mergeFailEnv).outputExistsAtEnd = false :=
  merge_video_merger_failure_cleanup mergeFailEnv "concat demuxer error"
    rfl (by decide)

/-- Claim C8: after a successful merge the output's duration is compared
against the expected total with tolerance `max(5.0, 0.02 * total)`; the
folder's outcome is Success (return True) no matter what: if the merged
output cannot be probed only a warning is recorded, and when it can be,
the drift warning is recorded exactly when the absolute difference
exceeds the tolerance. (A vanished ffprobe binary at this point is the
separate fatal tool-missing case, excluded here.) -/
theorem merge_video_duration_check_advisory (env : FolderEnv)
    (hrun : env.mergeRun = .ok)
    (hnm : env.mergedProbe ≠ .toolMissing)
    (hmi : (merge_video env).mergerInvoked = true) :
    (merge_video env).ret = true ∧
    (merge_video env).outcome = .success ∧
    (env.mergedProbe = .failed →
      (merge_video env).warnings = ["merged_output_probe_failed"]) ∧
    (∀ m : Metadata, env.mergedProbe = .ok m →
      (|(merge_video env).totalDuration - m.duration| >
          max (5.0 : ℚ) ((merge_video env).totalDuration * 0.02) ↔
        (merge_video env).warnings = ["duration_mismatch"])) := by
  obtain ⟨st, he⟩ := merge_video_invoked env hmi
  rw [he]
  rcases hp : env.mergedProbe with m | _ | _
  · simp only [mergePhase, hrun, hp]
    refine ⟨?_, ?_, ?_, ?_⟩
    · split <;> rfl
    · split <;> rfl
    · intro hco; simp at hco
    · intro m2 hm2
      have hmm : m = m2 := by injection hm2
      subst hmm
      split
      case isTrue h => simp [h]
      case isFalse h => simp [h]
  · simp [mergePhase, hrun, hp]
  · exact absurd hp hnm

/-- Claim C8 witness: the merge succeeds but the merged output cannot be
probed; the folder still returns True with only a warning. -/
theorem merge_video_duration_check_advisory_witness :
    (merge_video advisoryEnv).ret = true ∧
    (merge_video advisoryEnv).outcome = .success ∧
    (merge_video advisoryEnv).warnings = ["merged_output_probe_failed"] := by
  have h := merge_video_duration_check_advisory advisoryEnv rfl
    (by decide) (by decide)
  exact ⟨h.1, h.2.1, h.2.2.1 rfl⟩

/-- Claim C9: a segment with nonpositive probed duration is excluded from
the merge set without failing the folder: when at least one segment has
positive duration (and the positive ones agree on resolution) the folder
proceeds to invoke ffmpeg on exactly the positive-duration segments; only
when no segment survives does the folder fail, with the no-usable-parts
outcome and no ffmpeg invocation. -/
theorem merge_video_nonpositive_duration_excluded_not_fatal (env : FolderEnv)
    (meta : String → Metadata) (W H : ℕ)
    (hne : env.videos ≠ []) (hout : env.outputExists = false)
    (hok : ∀ v ∈ env.videos, env.probe v = .ok (meta v))
    (hres : ∀ v ∈ env.videos, 0 < (meta v).duration →
      (meta v).width = W ∧ (meta v).height = H) :
    ((env.videos.filter fun v => decide (0 < (meta v).duration)) ≠ [] →
      (merge_video env).validVideos =
        env.videos.filter (fun v => decide (0 < (meta v).duration)) ∧
      (merge_video env).mergerInvoked = true) ∧
    ((env.videos.filter fun v => decide (0 < (meta v).duration)) = [] →
      (merge_video env).ret = false ∧
      (merge_video env).outcome = .failedNoUsableParts ∧
      (merge_video env).mergerInvoked = false) := by
  have h1 : env.videos.isEmpty = false := by simpa [List.isEmpty_iff] using hne
  constructor
  · intro hfne
    have hval := validateLoop_all env.probe env.folderName meta W H env.videos
      hok hres
    obtain ⟨p0, ps, hp⟩ := List.exists_cons_of_ne_nil hfne
    have hhead : (env.videos.filter fun v =>
        decide (0 < (meta v).duration)).head?.map meta = some (meta p0) := by
      rw [hp]; rfl
    rw [hhead] at hval
    have hvne : (env.videos.filter fun v =>
        decide (0 < (meta v).duration)).isEmpty = false := by
      simpa [List.isEmpty_iff] using hfne
    have he := merge_video_eq_of_completed_some env _ (meta p0) h1 hout hval
      hvne rfl
    rw [he]
    obtain ⟨hmi, _, _, hvv, _, _⟩ := mergePhase_trace env _
    exact ⟨hvv, hmi⟩
  · intro hfe
    have hval := validateLoop_all env.probe env.folderName meta W H env.videos
      hok hres
    rw [hfe] at hval
    have he := merge_video_eq_of_completed_noValid env _ h1 hout hval rfl
    rw [he]
    exact ⟨rfl, rfl, rfl⟩

/-- Claim C9 witness: a folder with one zero-duration part and one valid
part proceeds to merge exactly the valid part. -/
theorem merge_video_nonpositive_duration_excluded_not_fatal_witness :
    (merge_video mixedEnv).validVideos = ["a.mp4"] ∧
    (merge_video mixedEnv).mergerInvoked = true := by
  have h := merge_video_nonpositive_duration_excluded_not_fatal mixedEnv
    mixedMeta 1920 1080 (by decide) rfl (by decide) (by decide)
  have h2 := h.1 (by decide)
  exact ⟨h2.1.trans (by decide), h2.2⟩

end Theorems

end VideoMerger
